import Mathlib

/-!
Shallow embedding of the core of `cpp20modules_tools`:
- data model from `src/lib.rs` (`Module`, `Reference`, `Cpp20ModulesInfo`,
  `Require`, `Provide`, `Rule`, `Ddi`, `Compiler`);
- `transform_ddi_to_cpp20modules_info` and `merge_cpp20modules_info`
  from `src/bin/agg-ddi.rs`;
- `generate_modmap` from `src/bin/gen-modmap.rs`.

Rust `HashMap<String, V>` is modelled as the function `String → Option V`
(`SMap`): a hash map with unique keys is, at the lookup level, exactly such a
function; `insert` overwrites, `extend` inserts every entry of the incoming
map (incoming wins on collisions), and iteration order — unspecified for a
Rust `HashMap` — is never observed by the embedded code.
-/

namespace CppTools

/-- The `Module` record of `src/lib.rs`: `bmi` artifact path and `is_private`. -/
structure Module where
  bmi : String
  is_private : Bool
deriving DecidableEq

/-- The `Reference` record of `src/lib.rs`: `lookup_method` and `path`. -/
structure Reference where
  lookup_method : String
  path : String
deriving DecidableEq

/-- String-keyed map, the lookup-level model of Rust `HashMap<String, V>`. -/
def SMap (α : Type) : Type := String → Option α

/-- Model of `HashMap::new()`: the empty map. -/
def SMap.empty {α : Type} : SMap α := fun _ => none

/-- Model of `HashMap::insert(k, v)`: overwrites any previous binding of `k`. -/
def SMap.insert {α : Type} (m : SMap α) (k : String) (v : α) : SMap α :=
  fun q => if q = k then some v else m q

/-- Model of `HashMap::extend(incoming)`: every entry of `incoming` is inserted into
`base`; since keys are unique in `incoming`, the resulting lookups are:
`incoming`'s value where present, otherwise `base`'s. -/
def SMap.extendWith {α : Type} (base incoming : SMap α) : SMap α :=
  fun k =>
    match incoming k with
    | some v => some v
    | none => base k

/-- The `Cpp20ModulesInfo` record of `src/lib.rs`: the module registry. -/
structure Cpp20ModulesInfo where
  modules : SMap Module
  references : SMap Reference
  usages : SMap (List String)

/-- The `Require` record of `src/lib.rs`. -/
structure Require where
  logical_name : String
deriving DecidableEq

/-- The `Provide` record of `src/lib.rs`. -/
structure Provide where
  is_interface : Bool
  logical_name : String
  source_path : String
deriving DecidableEq

/-- The `Rule` record of `src/lib.rs`. -/
structure Rule where
  primary_output : String
  provides : List Provide
  requires : List Require
deriving DecidableEq

/-- The `Ddi` record of `src/lib.rs`: a dependency descriptor. -/
structure Ddi where
  revision : Int
  rules : List Rule
  version : Int
deriving DecidableEq

/-- The `Compiler` enum of `src/lib.rs`. -/
inductive Compiler where
  | Clang
  | Gcc
  | Msvc
deriving DecidableEq

/-- The registry `agg-ddi.rs` starts from: all three maps empty. -/
def emptyInfo : Cpp20ModulesInfo :=
  { modules := SMap.empty, references := SMap.empty, usages := SMap.empty }

/-- Inner loop of `transform_ddi_to_cpp20modules_info` (`agg-ddi.rs`,
lines 31–49): for every `provide` of a rule, insert the `Module` and the
`Reference` entry keyed by `provide.logical_name`. -/
def foldProvides (primary_output : String) :
    Cpp20ModulesInfo → List Provide → Cpp20ModulesInfo
  | acc, [] => acc
  | acc, p :: ps =>
    foldProvides primary_output
      { acc with
        modules := acc.modules.insert p.logical_name
          { bmi := primary_output, is_private := !p.is_interface },
        references := acc.references.insert p.logical_name
          { lookup_method := "by-name", path := primary_output } }
      ps

/-- Outer loop of `transform_ddi_to_cpp20modules_info` (`agg-ddi.rs`,
lines 30–50): fold every rule of the descriptor. -/
def foldRules : Cpp20ModulesInfo → List Rule → Cpp20ModulesInfo
  | acc, [] => acc
  | acc, r :: rs => foldRules (foldProvides r.primary_output acc r.provides) rs

/-- Embedding of `transform_ddi_to_cpp20modules_info` of `agg-ddi.rs` (lines 23–54):
fold a descriptor into a registry fragment; the final statement re-assigns
`usages` to a fresh empty map. -/
def transform_ddi_to_cpp20modules_info (ddi : Ddi) : Cpp20ModulesInfo :=
  let info := foldRules emptyInfo ddi.rules
  { info with usages := SMap.empty }

/-- Embedding of `merge_cpp20modules_info` of `agg-ddi.rs` (lines 57–64): `extend`
`modules` and `references` with the incoming registry; `usages` untouched. -/
def merge_cpp20modules_info (info1 info2 : Cpp20ModulesInfo) : Cpp20ModulesInfo :=
  { modules := SMap.extendWith info1.modules info2.modules,
    references := SMap.extendWith info1.references info2.references,
    usages := info1.usages }

/-- The single-quote character, used in `generate_modmap`'s error text. -/
def sq : String := String.singleton (Char.ofNat 39)

/-- The error message of `gen-modmap.rs` lines 72–76:
`Reference for required module '<name>' not found`. -/
def missingRefMsg (name : String) : String :=
  "Reference for required module " ++ sq ++ name ++ sq ++ " not found"

/-- The "declare module output" lines of `gen-modmap.rs` lines 44–52. -/
def outputLines (compiler : Compiler) (bmi : String) : String :=
  match compiler with
  | Compiler.Clang | Compiler.Gcc =>
    "-x c++-module\n" ++ ("-fmodule-output=" ++ bmi ++ "\n")
  | Compiler.Msvc => "/module:output " ++ bmi ++ "\n"

/-- One require-mapping line of `gen-modmap.rs` lines 57–70. -/
def requireLine (compiler : Compiler) (name path : String) : String :=
  match compiler with
  | Compiler.Clang | Compiler.Gcc =>
    "-fmodule-file=" ++ name ++ "=" ++ path ++ "\n"
  | Compiler.Msvc => "/module:reference " ++ name ++ "=" ++ path ++ "\n"

/-- The `for require in &rule.requires` loop of `gen-modmap.rs` lines 55–78:
look every require up in `references`; emit one line per resolved require, in
order, and return the error of lines 72–76 at the first unresolved one. -/
def requireLines (compiler : Compiler) (info : Cpp20ModulesInfo) :
    List Require → Except String String
  | [] => Except.ok ""
  | req :: rest =>
    match info.references req.logical_name with
    | some ref =>
      match requireLines compiler info rest with
      | Except.ok s =>
        Except.ok (requireLine compiler req.logical_name ref.path ++ s)
      | Except.error e => Except.error e
    | none => Except.error (missingRefMsg req.logical_name)

/-- The `for rule in &ddi.rules` loop of `gen-modmap.rs` lines 34–83.
A rule with empty `provides` is skipped (`continue`, line 35). Otherwise the
first provide's `logical_name` is looked up in `modules` (line 42): when
found, the output-declaration lines and the require lines are emitted and the
loop `break`s (line 81) — in the Rust code the string buffer only ever
receives content from this one rule, so the loop is this recursion; when not
found, the `if let` body (which contains the `break`) is not entered and the
loop moves on to the next rule. -/
def generate_modmapLoop (compiler : Compiler) (info : Cpp20ModulesInfo) :
    List Rule → Except String String
  | [] => Except.ok ""
  | rule :: rest =>
    match rule.provides with
    | [] => generate_modmapLoop compiler info rest
    | provide :: _ =>
      match info.modules provide.logical_name with
      | some m =>
        match requireLines compiler info rule.requires with
        | Except.ok reqText => Except.ok (outputLines compiler m.bmi ++ reqText)
        | Except.error e => Except.error e
      | none => generate_modmapLoop compiler info rest

/-- Embedding of `generate_modmap` of `gen-modmap.rs` (lines 27–86). -/
def generate_modmap (compiler : Compiler) (info : Cpp20ModulesInfo)
    (ddi : Ddi) : Except String String :=
  generate_modmapLoop compiler info ddi.rules

/-- Concatenation of a list of text lines, in order. -/
def concatLines : List String → String
  | [] => ""
  | s :: rest => s ++ concatLines rest

/-- The rule `generate_modmap` actually processes: the first rule whose
`provides` is non-empty and whose first provide's `logical_name` is present
in `modules`. Every earlier rule is skipped by the loop. -/
def processedRule (info : Cpp20ModulesInfo) : List Rule → Option Rule
  | [] => none
  | r :: rs =>
    match r.provides with
    | [] => processedRule info rs
    | p :: _ =>
      match info.modules p.logical_name with
      | some _ => some r
      | none => processedRule info rs

/-- The logical name of the first require of a list that has no entry in
`references`, if any. -/
def firstMissingRequire (info : Cpp20ModulesInfo) : List Require → Option String
  | [] => none
  | req :: rest =>
    match info.references req.logical_name with
    | some _ => firstMissingRequire info rest
    | none => some req.logical_name

/-- Statement-side description of the require-mapping line emitted for one
require; meaningful when the require resolves in `references`. -/
def requireMappingLine (compiler : Compiler) (info : Cpp20ModulesInfo)
    (req : Require) : String :=
  match info.references req.logical_name with
  | some ref => requireLine compiler req.logical_name ref.path
  | none => ""

/-- Whether the `generate_modmap` loop passes over a rule without emitting
anything: empty `provides`, or first provided name absent from `modules`. -/
def skippedRule (info : Cpp20ModulesInfo) (r : Rule) : Bool :=
  match r.provides with
  | [] => true
  | p :: _ => (info.modules p.logical_name).isNone

/-- Whether the `generate_modmap` loop stops at a rule and processes it:
non-empty `provides` with first provided name present in `modules`. -/
def processesRule (info : Cpp20ModulesInfo) (r : Rule) : Bool :=
  match r.provides with
  | [] => false
  | p :: _ => (info.modules p.logical_name).isSome

/-- Last provide of a list carrying a given logical name, if any. -/
def lastProvideIn (name : String) : List Provide → Option Provide
  | [] => none
  | p :: ps =>
    match lastProvideIn name ps with
    | some q => some q
    | none => if p.logical_name = name then some p else none

/-- Last (rule, provide) provision of a given logical name across a rule
list, in rule/provide iteration order; returns the owning rule's
`primary_output` together with the provide. -/
def lastProvision (name : String) : List Rule → Option (String × Provide)
  | [] => none
  | r :: rs =>
    match lastProvision name rs with
    | some x => some x
    | none => (lastProvideIn name r.provides).map (fun p => (r.primary_output, p))

/-- All logical names provided by a rule list, in iteration order, with
duplicates. -/
def providedNames : List Rule → List String
  | [] => []
  | r :: rs => r.provides.map (fun p => p.logical_name) ++ providedNames rs

/-- The registry invariant of the spec: every logical name present in
`modules` is also present in `references`, with the reference `path` equal
to the module's `bmi`. -/
def goodInfo (info : Cpp20ModulesInfo) : Prop :=
  ∀ k m, info.modules k = some m →
    ∃ ref, info.references k = some ref ∧ ref.path = m.bmi

/-- Every key of `references` is also a key of `modules` (true of every
fold-produced fragment, where the key sets coincide). -/
def refsCoveredByModules (info : Cpp20ModulesInfo) : Prop :=
  ∀ k, (info.references k).isSome = true → (info.modules k).isSome = true

/-- Variant of the `generate_modmap` loop in which the positional access
`rule.provides[0]` of `gen-modmap.rs` line 39 is modelled by fallible
indexing: `none` stands for an out-of-bounds access (a Rust panic). -/
def generate_modmapLoopIdx (compiler : Compiler) (info : Cpp20ModulesInfo) :
    List Rule → Option (Except String String)
  | [] => some (Except.ok "")
  | rule :: rest =>
    if rule.provides.isEmpty then generate_modmapLoopIdx compiler info rest
    else
      match rule.provides.get? 0 with
      | none => none
      | some provide =>
        match info.modules provide.logical_name with
        | some m =>
          match requireLines compiler info rule.requires with
          | Except.ok reqText =>
            some (Except.ok (outputLines compiler m.bmi ++ reqText))
          | Except.error e => some (Except.error e)
        | none => generate_modmapLoopIdx compiler info rest

/-- Fallible-indexing variant of `generate_modmap`. -/
def generate_modmapIdx (compiler : Compiler) (info : Cpp20ModulesInfo)
    (ddi : Ddi) : Option (Except String String) :=
  generate_modmapLoopIdx compiler info ddi.rules

/-- Concrete rule providing `a` with no requires (first qualifying rule of
`exDdiAB`). -/
def exRuleA : Rule :=
  { primary_output := "a.o",
    provides := [{ is_interface := true, logical_name := "a", source_path := "a.cpp" }],
    requires := [] }

/-- Concrete rule providing `b` and requiring the unregistered `missing`. -/
def exRuleB : Rule :=
  { primary_output := "b.o",
    provides := [{ is_interface := true, logical_name := "b", source_path := "b.cpp" }],
    requires := [{ logical_name := "missing" }] }

/-- Concrete rule providing `x2`, used as trailing material after the
processed rule. -/
def exRuleX : Rule :=
  { primary_output := "x2.o",
    provides := [{ is_interface := true, logical_name := "x2", source_path := "x2.cpp" }],
    requires := [{ logical_name := "alsomissing" }] }

/-- Registry knowing module `b` only, with no references at all. -/
def exInfoB : Cpp20ModulesInfo :=
  { modules := SMap.empty.insert "b" { bmi := "b.pcm", is_private := false },
    references := SMap.empty,
    usages := SMap.empty }

/-- Descriptor whose first rule provides `a` (absent from `exInfoB.modules`)
and whose second rule provides `b` (present). -/
def exDdiAB : Ddi := { revision := 1, rules := [exRuleA, exRuleB], version := 1 }

/-- Rule providing `a` and requiring `foo`. -/
def exRuleAF : Rule :=
  { primary_output := "a.o",
    provides := [{ is_interface := true, logical_name := "a", source_path := "a.cpp" }],
    requires := [{ logical_name := "foo" }] }

/-- Descriptor with the single rule `exRuleAF`. -/
def exDdiAF : Ddi := { revision := 1, rules := [exRuleAF], version := 1 }

/-- Rule providing `m` and requiring `foo`. -/
def exRuleM : Rule :=
  { primary_output := "m.o",
    provides := [{ is_interface := true, logical_name := "m", source_path := "m.cpp" }],
    requires := [{ logical_name := "foo" }] }

/-- Descriptor with the single rule `exRuleM`. -/
def exDdiM : Ddi := { revision := 1, rules := [exRuleM], version := 1 }

/-- Registry knowing module `m` but holding no references. -/
def exInfoM : Cpp20ModulesInfo :=
  { modules := SMap.empty.insert "m" { bmi := "m.pcm", is_private := false },
    references := SMap.empty,
    usages := SMap.empty }

/-- The provide of the spec's resolution example: `bar`, interface. -/
def exProvideBar : Provide :=
  { is_interface := true, logical_name := "bar", source_path := "demo/bar.cpp" }

/-- The rule of the spec's resolution example: provides `bar`, requires `foo`. -/
def exRuleBar : Rule :=
  { primary_output := "CMakeFiles/bar.dir/bar.cpp.o",
    provides := [exProvideBar],
    requires := [{ logical_name := "foo" }] }

/-- The descriptor of the spec's resolution example. -/
def exDdiBar : Ddi := { revision := 0, rules := [exRuleBar], version := 1 }

/-- The module record registered for `bar` in the spec's example. -/
def exModuleBar : Module :=
  { bmi := "cmake-build-debug/CMakeFiles/bar.dir/bar.pcm", is_private := false }

/-- The registry of the spec's resolution example: module `bar`, references
`bar` and `foo`. -/
def exInfoBar : Cpp20ModulesInfo :=
  { modules := SMap.empty.insert "bar" exModuleBar,
    references :=
      (SMap.empty.insert "bar" { lookup_method := "by-name", path := "CMakeFiles/bar.dir/bar.pcm" }).insert
        "foo" { lookup_method := "by-name", path := "CMakeFiles/foo.dir/foo.pcm" },
    usages := SMap.empty }

/-- Registry defining `x` with artifact `A/x.o` in both maps. -/
def exInfoXA : Cpp20ModulesInfo :=
  { modules := SMap.empty.insert "x" { bmi := "A/x.o", is_private := false },
    references := SMap.empty.insert "x" { lookup_method := "by-name", path := "A/x.o" },
    usages := SMap.empty }

/-- Registry defining `x` with artifact `B/x.o` in both maps. -/
def exInfoXB : Cpp20ModulesInfo :=
  { modules := SMap.empty.insert "x" { bmi := "B/x.o", is_private := false },
    references := SMap.empty.insert "x" { lookup_method := "by-name", path := "B/x.o" },
    usages := SMap.empty }

/-- Registry satisfying the module→reference invariant: module `x` at
`a.pcm`, reference `x` at `a.pcm`. -/
def exGoodBase : Cpp20ModulesInfo :=
  { modules := SMap.empty.insert "x" { bmi := "a.pcm", is_private := false },
    references := SMap.empty.insert "x" { lookup_method := "by-name", path := "a.pcm" },
    usages := SMap.empty }

/-- Registry with no modules and a lone reference `x` at `b.pcm` (a valid
snapshot: a reference with no module entry denotes an externally produced
module). -/
def exRefOnly : Cpp20ModulesInfo :=
  { modules := SMap.empty,
    references := SMap.empty.insert "x" { lookup_method := "by-name", path := "b.pcm" },
    usages := SMap.empty }

/-- Descriptor providing `y` from `y.o`. -/
def exDdiY : Ddi :=
  { revision := 1,
    rules := [{ primary_output := "y.o",
                provides := [{ is_interface := true, logical_name := "y", source_path := "y.cpp" }],
                requires := [] }],
    version := 1 }

/-- Descriptor providing `x` from `x.o`. -/
def exDdiX : Ddi :=
  { revision := 1,
    rules := [{ primary_output := "x.o",
                provides := [{ is_interface := true, logical_name := "x", source_path := "x.cpp" }],
                requires := [] }],
    version := 1 }

/-- Descriptor whose only rule has empty `provides` but a require on the
unregistered name `ghost`. -/
def exDdiNoProv : Ddi :=
  { revision := 1,
    rules := [{ primary_output := "u.o", provides := [], requires := [{ logical_name := "ghost" }] }],
    version := 1 }


theorem requireLines_gcc (info : Cpp20ModulesInfo) (reqs : List Require) :
    requireLines Compiler.Gcc info reqs = requireLines Compiler.Clang info reqs := by
  induction reqs with
  | nil => rfl
  | cons req rest ih =>
    cases h : info.references req.logical_name with
    | none => simp [requireLines, h]
    | some ref => simp [requireLines, requireLine, h, ih]

theorem requireLines_eq (c : Compiler) (info : Cpp20ModulesInfo)
    (reqs : List Require) :
    requireLines c info reqs =
      match firstMissingRequire info reqs with
      | some name => Except.error (missingRefMsg name)
      | none => Except.ok (concatLines (reqs.map (requireMappingLine c info))) := by
  induction reqs with
  | nil => rfl
  | cons req rest ih =>
    cases h : info.references req.logical_name with
    | none => simp [requireLines, firstMissingRequire, h]
    | some ref =>
      have hline : requireMappingLine c info req =
          requireLine c req.logical_name ref.path := by
        simp [requireMappingLine, h]
      simp only [requireLines, firstMissingRequire, h, ih]
      cases hm : firstMissingRequire info rest with
      | some name => simp [hm]
      | none => simp [hm, concatLines, hline]

theorem firstMissingRequire_eq_none_iff (info : Cpp20ModulesInfo)
    (reqs : List Require) :
    firstMissingRequire info reqs = none ↔
      ∀ req ∈ reqs, (info.references req.logical_name).isSome = true := by
  induction reqs with
  | nil => simp [firstMissingRequire]
  | cons req rest ih =>
    cases h : info.references req.logical_name with
    | none => simp [firstMissingRequire, h]
    | some ref => simp [firstMissingRequire, h, ih]

theorem firstMissingRequire_eq_some (info : Cpp20ModulesInfo)
    (reqs : List Require) (name : String)
    (h : firstMissingRequire info reqs = some name) :
    info.references name = none ∧ ∃ req, req ∈ reqs ∧ req.logical_name = name := by
  induction reqs with
  | nil => simp [firstMissingRequire] at h
  | cons req rest ih =>
    cases hr : info.references req.logical_name with
    | none =>
      have h' : req.logical_name = name := by
        simpa [firstMissingRequire, hr] using h
      subst h'
      exact ⟨hr, req, List.mem_cons_self _ _, rfl⟩
    | some ref =>
      have h' : firstMissingRequire info rest = some name := by
        simpa [firstMissingRequire, hr] using h
      obtain ⟨h1, req', hmem, hn⟩ := ih h'
      exact ⟨h1, req', List.mem_cons_of_mem _ hmem, hn⟩

theorem generate_modmapLoop_eq_of_processed_none (c : Compiler)
    (info : Cpp20ModulesInfo) (rules : List Rule)
    (h : processedRule info rules = none) :
    generate_modmapLoop c info rules = Except.ok "" := by
  induction rules with
  | nil => rfl
  | cons r rs ih =>
    cases hp : r.provides with
    | nil =>
      have h' : processedRule info rs = none := by
        simpa [processedRule, hp] using h
      simpa [generate_modmapLoop, hp] using ih h'
    | cons p ps =>
      cases hm : info.modules p.logical_name with
      | some m => simp [processedRule, hp, hm] at h
      | none =>
        have h' : processedRule info rs = none := by
          simpa [processedRule, hp, hm] using h
        simpa [generate_modmapLoop, hp, hm] using ih h'

theorem generate_modmapLoop_eq_of_processed_some (c : Compiler)
    (info : Cpp20ModulesInfo) (rules : List Rule) (r : Rule)
    (h : processedRule info rules = some r) :
    ∃ p ps m, r.provides = p :: ps ∧ info.modules p.logical_name = some m ∧
      generate_modmapLoop c info rules =
        match requireLines c info r.requires with
        | Except.ok s => Except.ok (outputLines c m.bmi ++ s)
        | Except.error e => Except.error e := by
  induction rules with
  | nil => simp [processedRule] at h
  | cons r0 rs ih =>
    cases hp : r0.provides with
    | nil =>
      have h' : processedRule info rs = some r := by
        simpa [processedRule, hp] using h
      obtain ⟨p, ps, m, h1, h2, h3⟩ := ih h'
      exact ⟨p, ps, m, h1, h2, by simpa [generate_modmapLoop, hp] using h3⟩
    | cons p ps =>
      cases hm : info.modules p.logical_name with
      | some m =>
        have hr : r0 = r := by simpa [processedRule, hp, hm] using h
        subst hr
        exact ⟨p, ps, m, hp, hm, by simp [generate_modmapLoop, hp, hm]⟩
      | none =>
        have h' : processedRule info rs = some r := by
          simpa [processedRule, hp, hm] using h
        obtain ⟨p', ps', m', h1, h2, h3⟩ := ih h'
        exact ⟨p', ps', m', h1, h2, by simpa [generate_modmapLoop, hp, hm] using h3⟩

theorem generate_modmapLoop_gcc (info : Cpp20ModulesInfo) (rules : List Rule) :
    generate_modmapLoop Compiler.Gcc info rules =
      generate_modmapLoop Compiler.Clang info rules := by
  induction rules with
  | nil => rfl
  | cons r rs ih =>
    cases hp : r.provides with
    | nil => simpa [generate_modmapLoop, hp] using ih
    | cons p ps =>
      cases hm : info.modules p.logical_name with
      | none => simpa [generate_modmapLoop, hp, hm] using ih
      | some m =>
        cases hreq : requireLines Compiler.Clang info r.requires <;>
          simp [generate_modmapLoop, hp, hm, requireLines_gcc, hreq, outputLines]

theorem foldProvides_modules (out : String) (ps : List Provide)
    (acc : Cpp20ModulesInfo) (name : String) :
    (foldProvides out acc ps).modules name =
      match lastProvideIn name ps with
      | some p => some { bmi := out, is_private := !p.is_interface }
      | none => acc.modules name := by
  induction ps generalizing acc with
  | nil => rfl
  | cons p ps ih =>
    simp only [foldProvides, lastProvideIn]
    rw [ih]
    cases hq : lastProvideIn name ps with
    | some q => simp [hq]
    | none =>
      by_cases hn : p.logical_name = name
      · subst hn; simp [hq, SMap.insert]
      · have hn' : ¬ name = p.logical_name := fun h => hn h.symm
        simp [hq, hn, hn', SMap.insert]

theorem foldProvides_references (out : String) (ps : List Provide)
    (acc : Cpp20ModulesInfo) (name : String) :
    (foldProvides out acc ps).references name =
      match lastProvideIn name ps with
      | some _ => some { lookup_method := "by-name", path := out }
      | none => acc.references name := by
  induction ps generalizing acc with
  | nil => rfl
  | cons p ps ih =>
    simp only [foldProvides, lastProvideIn]
    rw [ih]
    cases hq : lastProvideIn name ps with
    | some q => simp [hq]
    | none =>
      by_cases hn : p.logical_name = name
      · subst hn; simp [hq, SMap.insert]
      · have hn' : ¬ name = p.logical_name := fun h => hn h.symm
        simp [hq, hn, hn', SMap.insert]

theorem foldProvides_usages (out : String) (ps : List Provide)
    (acc : Cpp20ModulesInfo) :
    (foldProvides out acc ps).usages = acc.usages := by
  induction ps generalizing acc with
  | nil => rfl
  | cons p ps ih => simpa [foldProvides] using ih _

theorem foldRules_modules (rules : List Rule) (acc : Cpp20ModulesInfo)
    (name : String) :
    (foldRules acc rules).modules name =
      match lastProvision name rules with
      | some x => some { bmi := x.1, is_private := !x.2.is_interface }
      | none => acc.modules name := by
  induction rules generalizing acc with
  | nil => rfl
  | cons r rs ih =>
    simp only [foldRules, lastProvision]
    rw [ih]
    cases hx : lastProvision name rs with
    | some x => simp [hx]
    | none =>
      rw [foldProvides_modules]
      cases hq : lastProvideIn name r.provides <;> simp [hq]

theorem foldRules_references (rules : List Rule) (acc : Cpp20ModulesInfo)
    (name : String) :
    (foldRules acc rules).references name =
      match lastProvision name rules with
      | some x => some { lookup_method := "by-name", path := x.1 }
      | none => acc.references name := by
  induction rules generalizing acc with
  | nil => rfl
  | cons r rs ih =>
    simp only [foldRules, lastProvision]
    rw [ih]
    cases hx : lastProvision name rs with
    | some x => simp [hx]
    | none =>
      rw [foldProvides_references]
      cases hq : lastProvideIn name r.provides <;> simp [hq]

theorem lastProvideIn_isSome_iff (name : String) (ps : List Provide) :
    (lastProvideIn name ps).isSome = true ↔
      name ∈ ps.map (fun p => p.logical_name) := by
  induction ps with
  | nil => simp [lastProvideIn]
  | cons p ps ih =>
    cases hq : lastProvideIn name ps with
    | some q =>
      have hmem : name ∈ ps.map (fun p => p.logical_name) := ih.mp (by simp [hq])
      simp [lastProvideIn, hq, hmem]
    | none =>
      have hmem : name ∉ ps.map (fun p => p.logical_name) := by
        intro hc
        have := ih.mpr hc
        rw [hq] at this
        simp at this
      by_cases hn : p.logical_name = name
      · subst hn; simp [lastProvideIn, hq]
      · have hn' : ¬ name = p.logical_name := fun h => hn h.symm
        simp [lastProvideIn, hq, hn, hn', hmem]

theorem lastProvision_isSome_iff (name : String) (rules : List Rule) :
    (lastProvision name rules).isSome = true ↔ name ∈ providedNames rules := by
  induction rules with
  | nil => simp [lastProvision, providedNames]
  | cons r rs ih =>
    cases hx : lastProvision name rs with
    | some x =>
      have hmem : name ∈ providedNames rs := ih.mp (by simp [hx])
      simp [lastProvision, hx, providedNames, hmem]
    | none =>
      have hmem : name ∉ providedNames rs := by
        intro hc
        have := ih.mpr hc
        rw [hx] at this
        simp at this
      cases hq : lastProvideIn name r.provides with
      | some q =>
        have h1 : name ∈ r.provides.map (fun p => p.logical_name) :=
          (lastProvideIn_isSome_iff name r.provides).mp (by simp [hq])
        simp [lastProvision, hx, hq, providedNames, h1]
      | none =>
        have h1 : name ∉ r.provides.map (fun p => p.logical_name) := by
          intro hc
          have := (lastProvideIn_isSome_iff name r.provides).mpr hc
          rw [hq] at this
          simp at this
        simp [lastProvision, hx, hq, providedNames, h1, hmem]

theorem generate_modmapLoop_drop_skipped (c : Compiler) (info : Cpp20ModulesInfo)
    (pre rest : List Rule) (h : ∀ r ∈ pre, skippedRule info r = true) :
    generate_modmapLoop c info (pre ++ rest) = generate_modmapLoop c info rest := by
  induction pre with
  | nil => rfl
  | cons r pre ih =>
    have hr : skippedRule info r = true := h r (List.mem_cons_self _ _)
    have h' : ∀ r0 ∈ pre, skippedRule info r0 = true :=
      fun r0 hm => h r0 (List.mem_cons_of_mem _ hm)
    cases hp : r.provides with
    | nil => simpa [generate_modmapLoop, hp] using ih h'
    | cons p ps =>
      have hm : info.modules p.logical_name = none := by
        rw [skippedRule, hp] at hr
        simpa [Option.isNone_iff_eq_none] using hr
      simpa [generate_modmapLoop, hp, hm] using ih h'

theorem generate_modmapLoop_processes_head (c : Compiler)
    (info : Cpp20ModulesInfo) (r : Rule) (rest : List Rule)
    (h : processesRule info r = true) :
    ∃ p ps m, r.provides = p :: ps ∧ info.modules p.logical_name = some m ∧
      generate_modmapLoop c info (r :: rest) =
        match requireLines c info r.requires with
        | Except.ok s => Except.ok (outputLines c m.bmi ++ s)
        | Except.error e => Except.error e := by
  cases hp : r.provides with
  | nil => rw [processesRule, hp] at h; simp at h
  | cons p ps =>
    have h' : (info.modules p.logical_name).isSome = true := by
      simpa [processesRule, hp] using h
    cases hm : info.modules p.logical_name with
    | none => rw [hm] at h'; simp at h'
    | some m => exact ⟨p, ps, m, rfl, hm, by simp [generate_modmapLoop, hp, hm]⟩

theorem generate_modmapLoopIdx_eq (c : Compiler) (info : Cpp20ModulesInfo)
    (rules : List Rule) :
    generate_modmapLoopIdx c info rules = some (generate_modmapLoop c info rules) := by
  induction rules with
  | nil => rfl
  | cons r rs ih =>
    cases hp : r.provides with
    | nil => simpa [generate_modmapLoopIdx, generate_modmapLoop, hp] using ih
    | cons p ps =>
      cases hm : info.modules p.logical_name with
      | none => simpa [generate_modmapLoopIdx, generate_modmapLoop, hp, hm] using ih
      | some m =>
        cases hreq : requireLines c info r.requires <;>
          simp [generate_modmapLoopIdx, generate_modmapLoop, hp, hm, hreq]

theorem generate_modmapLoop_processes_head_only (c : Compiler)
    (info : Cpp20ModulesInfo) (r : Rule) (rest : List Rule)
    (h : processesRule info r = true) :
    generate_modmapLoop c info (r :: rest) = generate_modmapLoop c info [r] := by
  cases hp : r.provides with
  | nil => rw [processesRule, hp] at h; simp at h
  | cons p ps =>
    have h' : (info.modules p.logical_name).isSome = true := by
      simpa [processesRule, hp] using h
    cases hm : info.modules p.logical_name with
    | none => rw [hm] at h'; simp at h'
    | some m => simp [generate_modmapLoop, hp, hm]

/-- C1 counterexample: in `exDdiAB` the first rule with non-empty `provides`
is `exRuleA`; it has no requires, so under the claim resolution could not
fail — yet `generate_modmap` fails, on the second rule's unresolved require
`missing`: the loop skipped `exRuleA` because `a` is absent from
`exInfoB.modules` and went on to process `exRuleB`. -/
theorem generate_modmap_later_rule_causes_failure :
    exDdiAB.rules = [exRuleA, exRuleB] ∧
    exRuleA.provides ≠ [] ∧
    exRuleA.requires = [] ∧
    generate_modmap Compiler.Clang exInfoB exDdiAB =
      Except.error (missingRefMsg "missing") := by
  refine ⟨rfl, by decide, rfl, rfl⟩

/-- C1 (amended): `generate_modmap` processes only the first rule whose
`provides` is non-empty AND whose first provided name is registered in
`modules`; earlier rules are the skipped ones, and every rule after the
processed one contributes nothing and cannot cause a failure — the result
does not depend on what follows the processed rule. -/
theorem generate_modmap_first_processed_rule (c : Compiler)
    (info : Cpp20ModulesInfo) (rev ver : Int) (pre : List Rule) (r : Rule)
    (post post2 : List Rule)
    (hpre : ∀ r0 ∈ pre, skippedRule info r0 = true)
    (hr : processesRule info r = true) :
    generate_modmap c info { revision := rev, rules := pre ++ r :: post, version := ver } =
      generate_modmap c info { revision := rev, rules := pre ++ r :: post2, version := ver } := by
  show generate_modmapLoop c info (pre ++ r :: post) =
    generate_modmapLoop c info (pre ++ r :: post2)
  rw [generate_modmapLoop_drop_skipped c info pre _ hpre,
    generate_modmapLoop_drop_skipped c info pre _ hpre,
    generate_modmapLoop_processes_head_only c info r post hr,
    generate_modmapLoop_processes_head_only c info r post2 hr]

/-- Witness for the amended C1 at concrete inputs: appending `exRuleX` after
the processed rule `exRuleB` does not change the result. -/
theorem generate_modmap_first_processed_rule_witness :
    generate_modmap Compiler.Clang exInfoB
        { revision := 1, rules := [exRuleA] ++ exRuleB :: [exRuleX], version := 1 } =
      generate_modmap Compiler.Clang exInfoB
        { revision := 1, rules := [exRuleA] ++ exRuleB :: [], version := 1 } :=
  generate_modmap_first_processed_rule Compiler.Clang exInfoB 1 1 [exRuleA]
    exRuleB [exRuleX] [] (by decide) (by decide)

/-- C2 counterexample: the only rule of `exDdiAF` has non-empty `provides`
with logical name `a` absent from the empty registry's `modules`, and a
require on `foo`, which has no entry in `references`. The claim predicts a
require-resolution failure; the code skips the rule entirely and returns
empty argument text. -/
theorem generate_modmap_skips_unregistered_silently :
    exDdiAF.rules = [exRuleAF] ∧
    exRuleAF.provides ≠ [] ∧
    emptyInfo.modules "a" = none ∧
    emptyInfo.references "foo" = none ∧
    exRuleAF.requires = [{ logical_name := "foo" }] ∧
    generate_modmap Compiler.Clang emptyInfo exDdiAF = Except.ok "" := by
  refine ⟨rfl, by decide, rfl, rfl, rfl, rfl⟩

/-- C2 (amended): when a rule's `provides` is non-empty but its first
provide's logical name is absent from `modules`, `generate_modmap` skips the
rule entirely — no output-declaration lines, no require-resolution, no
failure from its requires — and continues with the remaining rules. -/
theorem generate_modmap_skips_unregistered_rule (c : Compiler)
    (info : Cpp20ModulesInfo) (rev ver : Int) (r : Rule) (rest : List Rule)
    (p : Provide) (ps : List Provide)
    (hp : r.provides = p :: ps)
    (hm : info.modules p.logical_name = none) :
    generate_modmap c info { revision := rev, rules := r :: rest, version := ver } =
      generate_modmap c info { revision := rev, rules := rest, version := ver } := by
  show generate_modmapLoop c info (r :: rest) = generate_modmapLoop c info rest
  simp [generate_modmapLoop, hp, hm]

/-- Witness for the amended C2 at concrete inputs. -/
theorem generate_modmap_skips_unregistered_rule_witness :
    generate_modmap Compiler.Clang emptyInfo
        { revision := 1, rules := exRuleAF :: [], version := 1 } =
      generate_modmap Compiler.Clang emptyInfo
        { revision := 1, rules := [], version := 1 } :=
  generate_modmap_skips_unregistered_rule Compiler.Clang emptyInfo 1 1 exRuleAF []
    { is_interface := true, logical_name := "a", source_path := "a.cpp" } [] rfl rfl

/-- C8: a descriptor in which no rule has non-empty `provides` resolves to
empty argument text, for every dialect and registry — even when its rules
carry requires whose names are absent from `references`. -/
theorem generate_modmap_no_provides (c : Compiler) (info : Cpp20ModulesInfo)
    (ddi : Ddi) (h : ∀ r ∈ ddi.rules, r.provides = []) :
    generate_modmap c info ddi = Except.ok "" := by
  show generate_modmapLoop c info ddi.rules = Except.ok ""
  suffices h2 : ∀ rules : List Rule, (∀ r ∈ rules, r.provides = []) →
      generate_modmapLoop c info rules = Except.ok "" from h2 ddi.rules h
  intro rules
  induction rules with
  | nil => intro _; rfl
  | cons r rs ih =>
    intro hall
    have hp : r.provides = [] := hall r (List.mem_cons_self _ _)
    have h' : ∀ r0 ∈ rs, r0.provides = [] :=
      fun r0 hm0 => hall r0 (List.mem_cons_of_mem _ hm0)
    simpa [generate_modmapLoop, hp] using ih h'

/-- Witness for C8: the sole rule of `exDdiNoProv` has empty `provides` and
an unresolvable require `ghost`, and resolution still succeeds with empty
text. -/
theorem generate_modmap_no_provides_witness :
    emptyInfo.references "ghost" = none ∧
    generate_modmap Compiler.Clang emptyInfo exDdiNoProv = Except.ok "" :=
  ⟨rfl, generate_modmap_no_provides Compiler.Clang emptyInfo exDdiNoProv (by decide)⟩

/-- C9: `merge_cpp20modules_info` returns `base`'s `usages` unchanged and
discards `incoming`'s `usages`, whatever either contains. -/
theorem merge_preserves_usages (base incoming : Cpp20ModulesInfo) (k : String) :
    (merge_cpp20modules_info base incoming).usages k = base.usages k := rfl

/-- C10: the only positional access of `generate_modmap`
(`rule.provides[0]`, line 39) is guarded by the non-emptiness check of
line 35, so the fallible-indexing variant never reaches its out-of-bounds
outcome and the resolver always returns argument text or an error. -/
theorem generate_modmap_index_safe (c : Compiler) (info : Cpp20ModulesInfo)
    (ddi : Ddi) :
    generate_modmapIdx c info ddi = some (generate_modmap c info ddi) ∧
    ((∃ s, generate_modmap c info ddi = Except.ok s) ∨
      (∃ e, generate_modmap c info ddi = Except.error e)) := by
  refine ⟨generate_modmapLoopIdx_eq c info ddi.rules, ?_⟩
  cases h : generate_modmap c info ddi with
  | ok s => exact Or.inl ⟨s, rfl⟩
  | error e => exact Or.inr ⟨e, rfl⟩

/-- C3: `generate_modmap` fails exactly when the processed rule (the first
rule with non-empty `provides` whose first provided name is registered in
`modules`) has a require with no entry in `references`; the failure carries
the `missing reference` message naming an unresolved logical name of that
rule, and no argument text is produced (the result is an `error`, not an
`ok`). -/
theorem generate_modmap_missing_reference (c : Compiler)
    (info : Cpp20ModulesInfo) (ddi : Ddi) :
    ((∃ r, processedRule info ddi.rules = some r ∧
        ∃ req, req ∈ r.requires ∧ info.references req.logical_name = none) →
      ∃ name, info.references name = none ∧
        (∃ r, processedRule info ddi.rules = some r ∧
          ∃ req, req ∈ r.requires ∧ req.logical_name = name) ∧
        generate_modmap c info ddi = Except.error (missingRefMsg name) ∧
        (∃ s t, missingRefMsg name = s ++ (name ++ t))) ∧
    (∀ e, generate_modmap c info ddi = Except.error e →
      ∃ r, processedRule info ddi.rules = some r ∧
        ∃ req, req ∈ r.requires ∧ info.references req.logical_name = none) := by
  constructor
  · rintro ⟨r, hproc, req, hmem, hnone⟩
    obtain ⟨p, ps, m, hp, hm, heq⟩ :=
      generate_modmapLoop_eq_of_processed_some c info ddi.rules r hproc
    cases hfm : firstMissingRequire info r.requires with
    | none =>
      exfalso
      have hall := (firstMissingRequire_eq_none_iff info r.requires).mp hfm
      have hbad := hall req hmem
      rw [hnone] at hbad
      simp at hbad
    | some name =>
      obtain ⟨h1, req2, hmem2, hname2⟩ :=
        firstMissingRequire_eq_some info r.requires name hfm
      refine ⟨name, h1, ⟨r, hproc, req2, hmem2, hname2⟩, ?_, ?_⟩
      · show generate_modmapLoop c info ddi.rules = Except.error (missingRefMsg name)
        rw [heq, requireLines_eq, hfm]
      · refine ⟨"Reference for required module " ++ sq, sq ++ " not found", ?_⟩
        rw [missingRefMsg, String.append_assoc, String.append_assoc]
  · intro e he
    cases hproc : processedRule info ddi.rules with
    | none =>
      exfalso
      have hok := generate_modmapLoop_eq_of_processed_none c info ddi.rules hproc
      have he2 : generate_modmapLoop c info ddi.rules = Except.error e := he
      rw [hok] at he2
      simp at he2
    | some r =>
      obtain ⟨p, ps, m, hp, hm, heq⟩ :=
        generate_modmapLoop_eq_of_processed_some c info ddi.rules r hproc
      cases hfm : firstMissingRequire info r.requires with
      | none =>
        exfalso
        rw [requireLines_eq, hfm] at heq
        have he2 : generate_modmapLoop c info ddi.rules = Except.error e := he
        rw [heq] at he2
        simp at he2
      | some name =>
        obtain ⟨h1, req2, hmem2, hname2⟩ :=
          firstMissingRequire_eq_some info r.requires name hfm
        refine ⟨r, rfl, req2, hmem2, ?_⟩
        rw [hname2]
        exact h1

/-- Witness for C3 at concrete inputs: resolving `exDdiM` (provides the
registered `m`, requires `foo`) against `exInfoM` (no references) fails with
the message naming `foo`. -/
theorem generate_modmap_missing_reference_witness :
    ∃ name, exInfoM.references name = none ∧
      (∃ r, processedRule exInfoM exDdiM.rules = some r ∧
        ∃ req, req ∈ r.requires ∧ req.logical_name = name) ∧
      generate_modmap Compiler.Clang exInfoM exDdiM =
        Except.error (missingRefMsg name) ∧
      (∃ s t, missingRefMsg name = s ++ (name ++ t)) :=
  (generate_modmap_missing_reference Compiler.Clang exInfoM exDdiM).1
    ⟨exRuleM, rfl, { logical_name := "foo" }, by decide, rfl⟩

/-- C4: when the processed rule's first provided name is registered as
module `m` and every require resolves, `generate_modmap` returns exactly the
dialect's output-declaration lines followed by one require-mapping line per
require in descriptor order, each newline-terminated; `Gcc` output equals
`Clang` output. -/
theorem generate_modmap_success_shape (info : Cpp20ModulesInfo) (ddi : Ddi)
    (r : Rule) (p : Provide) (ps : List Provide) (m : Module)
    (hproc : processedRule info ddi.rules = some r)
    (hp : r.provides = p :: ps)
    (hm : info.modules p.logical_name = some m)
    (hres : ∀ req ∈ r.requires, (info.references req.logical_name).isSome = true) :
    generate_modmap Compiler.Clang info ddi =
      Except.ok ("-x c++-module\n" ++ ("-fmodule-output=" ++ m.bmi ++ "\n") ++
        concatLines (r.requires.map (requireMappingLine Compiler.Clang info))) ∧
    generate_modmap Compiler.Msvc info ddi =
      Except.ok (("/module:output " ++ m.bmi ++ "\n") ++
        concatLines (r.requires.map (requireMappingLine Compiler.Msvc info))) ∧
    generate_modmap Compiler.Gcc info ddi =
      generate_modmap Compiler.Clang info ddi ∧
    (∀ req ∈ r.requires, ∃ ref, info.references req.logical_name = some ref ∧
      requireMappingLine Compiler.Clang info req =
        "-fmodule-file=" ++ req.logical_name ++ "=" ++ ref.path ++ "\n" ∧
      requireMappingLine Compiler.Msvc info req =
        "/module:reference " ++ req.logical_name ++ "=" ++ ref.path ++ "\n") := by
  have key : ∀ c, generate_modmapLoop c info ddi.rules =
      match requireLines c info r.requires with
      | Except.ok s => Except.ok (outputLines c m.bmi ++ s)
      | Except.error e => Except.error e := by
    intro c
    obtain ⟨p0, ps0, m0, hp0, hm0, heq⟩ :=
      generate_modmapLoop_eq_of_processed_some c info ddi.rules r hproc
    rw [hp] at hp0
    injection hp0 with h1 h2
    subst h1
    rw [hm] at hm0
    injection hm0 with h3
    subst h3
    exact heq
  have hfm : firstMissingRequire info r.requires = none :=
    (firstMissingRequire_eq_none_iff info r.requires).mpr hres
  have hreq : ∀ c, requireLines c info r.requires =
      Except.ok (concatLines (r.requires.map (requireMappingLine c info))) := by
    intro c
    rw [requireLines_eq, hfm]
  refine ⟨?_, ?_, ?_, ?_⟩
  · show generate_modmapLoop Compiler.Clang info ddi.rules = _
    rw [key, hreq]
    rfl
  · show generate_modmapLoop Compiler.Msvc info ddi.rules = _
    rw [key, hreq]
    rfl
  · exact generate_modmapLoop_gcc info ddi.rules
  · intro req hmem
    have hsome := hres req hmem
    cases href : info.references req.logical_name with
    | none => rw [href] at hsome; simp at hsome
    | some ref =>
      exact ⟨ref, rfl, by simp [requireMappingLine, href, requireLine],
        by simp [requireMappingLine, href, requireLine]⟩

/-- Witness for C4: the spec's resolution example (`bar` provided and
registered, `foo` required and referenced) at `Clang` and `Msvc`, plus the
`Gcc`/`Clang` agreement at those inputs. -/
theorem generate_modmap_success_shape_witness :
    generate_modmap Compiler.Clang exInfoBar exDdiBar =
      Except.ok ("-x c++-module\n" ++ ("-fmodule-output=" ++ exModuleBar.bmi ++ "\n") ++
        concatLines (exRuleBar.requires.map (requireMappingLine Compiler.Clang exInfoBar))) ∧
    generate_modmap Compiler.Msvc exInfoBar exDdiBar =
      Except.ok (("/module:output " ++ exModuleBar.bmi ++ "\n") ++
        concatLines (exRuleBar.requires.map (requireMappingLine Compiler.Msvc exInfoBar))) ∧
    generate_modmap Compiler.Gcc exInfoBar exDdiBar =
      generate_modmap Compiler.Clang exInfoBar exDdiBar :=
  ⟨(generate_modmap_success_shape exInfoBar exDdiBar exRuleBar exProvideBar []
      exModuleBar rfl rfl rfl (by decide)).1,
   (generate_modmap_success_shape exInfoBar exDdiBar exRuleBar exProvideBar []
      exModuleBar rfl rfl rfl (by decide)).2.1,
   (generate_modmap_success_shape exInfoBar exDdiBar exRuleBar exProvideBar []
      exModuleBar rfl rfl rfl (by decide)).2.2.1⟩

/-- C5: the fragment produced by `transform_ddi_to_cpp20modules_info` binds a
logical name exactly when the descriptor provides it; the bound `Module` and
`Reference` come from the last provision of that name in rule/provide
iteration order, with `is_private` the negation of that provide's
`is_interface` and `bmi`/`path` the owning rule's `primary_output`
(`lookup_method` is `by-name`); `usages` is empty. -/
theorem transform_fold_characterization (ddi : Ddi) (name : String) :
    ((transform_ddi_to_cpp20modules_info ddi).modules name =
      (lastProvision name ddi.rules).map
        (fun x => { bmi := x.1, is_private := !x.2.is_interface })) ∧
    ((transform_ddi_to_cpp20modules_info ddi).references name =
      (lastProvision name ddi.rules).map
        (fun x => { lookup_method := "by-name", path := x.1 })) ∧
    (transform_ddi_to_cpp20modules_info ddi).usages name = none ∧
    (((transform_ddi_to_cpp20modules_info ddi).modules name).isSome = true ↔
      name ∈ providedNames ddi.rules) ∧
    (((transform_ddi_to_cpp20modules_info ddi).references name).isSome = true ↔
      name ∈ providedNames ddi.rules) := by
  have hmod : (transform_ddi_to_cpp20modules_info ddi).modules name =
      (foldRules emptyInfo ddi.rules).modules name := rfl
  have href : (transform_ddi_to_cpp20modules_info ddi).references name =
      (foldRules emptyInfo ddi.rules).references name := rfl
  refine ⟨?_, ?_, rfl, ?_, ?_⟩
  · rw [hmod, foldRules_modules]
    cases hx : lastProvision name ddi.rules <;> simp [hx, emptyInfo, SMap.empty]
  · rw [href, foldRules_references]
    cases hx : lastProvision name ddi.rules <;> simp [hx, emptyInfo, SMap.empty]
  · rw [hmod, foldRules_modules]
    cases hx : lastProvision name ddi.rules with
    | none =>
      have hmem : ¬ name ∈ providedNames ddi.rules := by
        intro hc
        have hs := (lastProvision_isSome_iff name ddi.rules).mpr hc
        rw [hx] at hs
        simp at hs
      simp [hx, emptyInfo, SMap.empty, hmem]
    | some x =>
      have hmem : name ∈ providedNames ddi.rules :=
        (lastProvision_isSome_iff name ddi.rules).mp (by simp [hx])
      simp [hx, hmem]
  · rw [href, foldRules_references]
    cases hx : lastProvision name ddi.rules with
    | none =>
      have hmem : ¬ name ∈ providedNames ddi.rules := by
        intro hc
        have hs := (lastProvision_isSome_iff name ddi.rules).mpr hc
        rw [hx] at hs
        simp at hs
      simp [hx, emptyInfo, SMap.empty, hmem]
    | some x =>
      have hmem : name ∈ providedNames ddi.rules :=
        (lastProvision_isSome_iff name ddi.rules).mp (by simp [hx])
      simp [hx, hmem]

/-- C6: in `merge_cpp20modules_info`, for `modules` and `references`, every
key of `incoming` overwrites `base`'s entry and keys only in `base` are
preserved; in particular when both registries define the same key, merging
`base` then `incoming` keeps `incoming`'s value and merging in the opposite
order keeps `base`'s. -/
theorem merge_last_write_wins (base incoming : Cpp20ModulesInfo) (k : String) :
    ((incoming.modules k).isSome = true →
      (merge_cpp20modules_info base incoming).modules k = incoming.modules k) ∧
    (incoming.modules k = none →
      (merge_cpp20modules_info base incoming).modules k = base.modules k) ∧
    ((incoming.references k).isSome = true →
      (merge_cpp20modules_info base incoming).references k = incoming.references k) ∧
    (incoming.references k = none →
      (merge_cpp20modules_info base incoming).references k = base.references k) ∧
    (∀ vb vi, base.modules k = some vb → incoming.modules k = some vi →
      (merge_cpp20modules_info base incoming).modules k = some vi ∧
      (merge_cpp20modules_info incoming base).modules k = some vb) ∧
    (∀ vb vi, base.references k = some vb → incoming.references k = some vi →
      (merge_cpp20modules_info base incoming).references k = some vi ∧
      (merge_cpp20modules_info incoming base).references k = some vb) := by
  refine ⟨?_, ?_, ?_, ?_, ?_, ?_⟩
  · intro h
    cases hi : incoming.modules k with
    | none => rw [hi] at h; simp at h
    | some v => simp [merge_cpp20modules_info, SMap.extendWith, hi]
  · intro hi
    simp [merge_cpp20modules_info, SMap.extendWith, hi]
  · intro h
    cases hi : incoming.references k with
    | none => rw [hi] at h; simp at h
    | some v => simp [merge_cpp20modules_info, SMap.extendWith, hi]
  · intro hi
    simp [merge_cpp20modules_info, SMap.extendWith, hi]
  · intro vb vi hb hi
    constructor
    · simp [merge_cpp20modules_info, SMap.extendWith, hi]
    · simp [merge_cpp20modules_info, SMap.extendWith, hb]
  · intro vb vi hb hi
    constructor
    · simp [merge_cpp20modules_info, SMap.extendWith, hi]
    · simp [merge_cpp20modules_info, SMap.extendWith, hb]

/-- Witness for C6: registries `exInfoXA` and `exInfoXB` both define `x`
with different artifact paths; merging A then B resolves `x` to B's path and
merging B then A resolves it to A's path, in both maps. -/
theorem merge_last_write_wins_witness :
    ((merge_cpp20modules_info exInfoXA exInfoXB).modules "x" =
        some { bmi := "B/x.o", is_private := false } ∧
      (merge_cpp20modules_info exInfoXB exInfoXA).modules "x" =
        some { bmi := "A/x.o", is_private := false }) ∧
    ((merge_cpp20modules_info exInfoXA exInfoXB).references "x" =
        some { lookup_method := "by-name", path := "B/x.o" } ∧
      (merge_cpp20modules_info exInfoXB exInfoXA).references "x" =
        some { lookup_method := "by-name", path := "A/x.o" }) :=
  ⟨(merge_last_write_wins exInfoXA exInfoXB "x").2.2.2.2.1 _ _ rfl rfl,
   (merge_last_write_wins exInfoXA exInfoXB "x").2.2.2.2.2 _ _ rfl rfl⟩

/-- C7 counterexample: `exGoodBase` and `exRefOnly` each satisfy the
module→reference invariant (the latter vacuously — a reference with no
module entry is a valid snapshot), yet their merge does not: `x` keeps
`base`'s module (bmi `a.pcm`) while `incoming`'s reference overwrites the
path to `b.pcm`. -/
theorem merge_breaks_module_reference_invariant :
    goodInfo exGoodBase ∧ goodInfo exRefOnly ∧
    ¬ goodInfo (merge_cpp20modules_info exGoodBase exRefOnly) := by
  refine ⟨?_, ?_, ?_⟩
  · intro k m hk
    by_cases hx : k = "x"
    · subst hx
      have hb : exGoodBase.modules "x" =
          some { bmi := "a.pcm", is_private := false } := rfl
      rw [hb] at hk
      injection hk with h4
      subst h4
      exact ⟨{ lookup_method := "by-name", path := "a.pcm" }, rfl, rfl⟩
    · exfalso
      have hnone : exGoodBase.modules k = none := by
        simp [exGoodBase, SMap.insert, SMap.empty, hx]
      rw [hnone] at hk
      exact Option.noConfusion hk
  · intro k m hk
    have hnone : exRefOnly.modules k = none := rfl
    rw [hnone] at hk
    exact Option.noConfusion hk
  · intro h
    obtain ⟨ref, href, hpath⟩ :=
      h "x" { bmi := "a.pcm", is_private := false } rfl
    have h2 : (merge_cpp20modules_info exGoodBase exRefOnly).references "x" =
        some { lookup_method := "by-name", path := "b.pcm" } := rfl
    rw [h2] at href
    injection href with h3
    rw [← h3] at hpath
    exact absurd hpath (by decide)

/-- C7 (amended): every fold-produced fragment satisfies the
module→reference invariant and moreover its `references` keys are covered by
its `modules` keys; merge preserves the invariant provided `incoming`'s
references are covered by its modules (as fold-produced fragments are) —
without that proviso the invariant can break, see the counterexample. -/
theorem registry_invariant_amended :
    (∀ ddi : Ddi, goodInfo (transform_ddi_to_cpp20modules_info ddi) ∧
      refsCoveredByModules (transform_ddi_to_cpp20modules_info ddi)) ∧
    (∀ base incoming : Cpp20ModulesInfo, goodInfo base → goodInfo incoming →
      refsCoveredByModules incoming →
      goodInfo (merge_cpp20modules_info base incoming)) := by
  constructor
  · intro ddi
    constructor
    · intro k m hk
      have hk2 : (foldRules emptyInfo ddi.rules).modules k = some m := hk
      rw [foldRules_modules] at hk2
      cases hx : lastProvision k ddi.rules with
      | none =>
        rw [hx] at hk2
        simp [emptyInfo, SMap.empty] at hk2
      | some x =>
        rw [hx] at hk2
        simp only [Option.some.injEq] at hk2
        refine ⟨{ lookup_method := "by-name", path := x.1 }, ?_, ?_⟩
        · show (foldRules emptyInfo ddi.rules).references k = _
          rw [foldRules_references, hx]
        · rw [← hk2]
    · intro k hk
      have hk2 : ((foldRules emptyInfo ddi.rules).references k).isSome = true := hk
      rw [foldRules_references] at hk2
      cases hx : lastProvision k ddi.rules with
      | none =>
        rw [hx] at hk2
        simp [emptyInfo, SMap.empty] at hk2
      | some x =>
        show ((foldRules emptyInfo ddi.rules).modules k).isSome = true
        rw [foldRules_modules, hx]
        rfl
  · intro base incoming hb hi hcov k m hk
    have hk2 : SMap.extendWith base.modules incoming.modules k = some m := hk
    cases hinc : incoming.modules k with
    | some v =>
      have hv : v = m := by
        rw [SMap.extendWith, hinc] at hk2
        exact Option.some.inj hk2
      subst hv
      obtain ⟨ref, href, hpath⟩ := hi k v hinc
      refine ⟨ref, ?_, hpath⟩
      show SMap.extendWith base.references incoming.references k = some ref
      rw [SMap.extendWith, href]
    | none =>
      have hbm : base.modules k = some m := by
        rw [SMap.extendWith, hinc] at hk2
        exact hk2
      obtain ⟨ref, href, hpath⟩ := hb k m hbm
      have hrefnone : incoming.references k = none := by
        cases hr : incoming.references k with
        | none => rfl
        | some r0 =>
          exfalso
          have h1 : (incoming.references k).isSome = true := by rw [hr]; rfl
          have h2 := hcov k h1
          rw [hinc] at h2
          simp at h2
      refine ⟨ref, ?_, hpath⟩
      show SMap.extendWith base.references incoming.references k = some ref
      rw [SMap.extendWith, hrefnone, href]

/-- Witness for the amended C7: merging the fragments folded from `exDdiY`
and `exDdiX` yields a registry in which module `x`'s reference exists and
carries `x`'s own artifact path. -/
theorem registry_invariant_amended_witness :
    ∃ ref, (merge_cpp20modules_info (transform_ddi_to_cpp20modules_info exDdiY)
        (transform_ddi_to_cpp20modules_info exDdiX)).references "x" = some ref ∧
      ref.path = "x.o" :=
  (registry_invariant_amended.2
      (transform_ddi_to_cpp20modules_info exDdiY)
      (transform_ddi_to_cpp20modules_info exDdiX)
      (registry_invariant_amended.1 exDdiY).1
      (registry_invariant_amended.1 exDdiX).1
      (registry_invariant_amended.1 exDdiX).2)
    "x" { bmi := "x.o", is_private := false } (by decide)

end CppTools
